import Mathlib

/-!
Verification of the streaming sentiment aggregator in
`src/consumers/project_consumer_vrtachnik.py`.

The embedding below models, faithfully to the source:
* the universe of decoded JSON values (`json.loads` results) as `JVal`;
* `process_message` (lines 87-105): decode-result dispatch, the
  `isinstance(dict)` check, the `author` / `sentiment` defaulting, Python
  `float(...)` coercion, the `defaultdict` update, and the inline
  `update_chart()` call;
* `update_chart` (lines 53-81): the reads of `author_stats` that compute the
  author list, counts and averages (the drawing calls have no effect on the
  aggregate state and are not modelled);
* the tailing loop of `main` (lines 111-134): `open` + `seek(0, SEEK_END)`,
  `readline`, the `line.strip()` test, `sys.exit(1)` on a missing file and the
  `KeyboardInterrupt`/`finally` shutdown path.

Python floats are idealised as exact rationals (`ℚ`); `float(str)` is modelled
on the plain finite-decimal fragment, which covers every value exercised here.
-/

set_option autoImplicit false

namespace SentimentConsumer

/- Decoded JSON values, the possible results of `json.loads`: Python `str`,
`int`/`float` (conflated as one numeric constructor over `ℚ`), `bool`, `None`,
`list` and `dict` (a field list; `json.loads` keeps the last duplicate key). -/
mutual
inductive JVal where
  | str (s : String)
  | num (q : ℚ)
  | bool (b : Bool)
  | null
  | arr (elems : JList)
  | obj (fields : JFields)
  deriving DecidableEq

inductive JList where
  | nil
  | cons (hd : JVal) (tl : JList)
  deriving DecidableEq

inductive JFields where
  | nil
  | cons (key : String) (val : JVal) (tl : JFields)
  deriving DecidableEq
end

/-- Python `dict.get(key)` on a decoded JSON object: the last binding of a
duplicated key wins, as in the `dict` built by `json.loads`. -/
def JFields.get? : JFields → String → Option JVal
  | .nil, _ => none
  | .cons k v tl, key =>
    match JFields.get? tl key with
    | some w => some w
    | none => if k = key then some v else none

/-- The name Python `type(...)` reports for a decoded value, as interpolated
into the `"Expected dict, got ..."` log line (line 103). -/
def pyTypeName : JVal → String
  | .str _ => "str"
  | .num _ => "float"
  | .bool _ => "bool"
  | .null => "NoneType"
  | .arr _ => "list"
  | .obj _ => "dict"

/-- Whether a decoded value is a Python `dict`, i.e. passes the
`isinstance(message_dict, dict)` test on line 91. -/
def JVal.isObj : JVal → Bool
  | .obj _ => true
  | _ => false

/-- Whether a decoded value is hashable in Python (usable as a `dict` key):
`list` and `dict` raise `TypeError` at `author_stats[author]`, all other
decoded values are hashable. -/
def JVal.hashable : JVal → Bool
  | .arr _ => false
  | .obj _ => false
  | _ => true

/-- Numeric value of a list of decimal digits. -/
def digitsVal (l : List Char) : Nat :=
  l.foldl (fun n c => 10 * n + (c.toNat - 48)) 0

/-- Python `str.strip()` on a character list: drop whitespace on both ends. -/
def stripList (l : List Char) : List Char :=
  ((l.dropWhile Char.isWhitespace).reverse.dropWhile Char.isWhitespace).reverse

/-- Unsigned finite-decimal parsing: `"12"`, `"12."`, `"12.5"`, `".5"` are
accepted, anything else is rejected. -/
def parseUnsignedDecimal (l : List Char) : Option ℚ :=
  let ip := l.takeWhile Char.isDigit
  let rest := l.drop ip.length
  match rest with
  | [] => if ip.isEmpty then none else some (digitsVal ip)
  | '.' :: fp =>
    if fp.all Char.isDigit && (!ip.isEmpty || !fp.isEmpty) then
      some ((digitsVal ip : ℚ) + (digitsVal fp : ℚ) / ((10 : ℚ) ^ fp.length))
    else none
  | _ => none

/-- Model of Python `float(str)` on the finite-decimal fragment: optional
surrounding whitespace, optional sign, decimal digits with an optional point.
(Exponents, `inf`, `nan` and digit underscores are outside the fragment; no
input exercised here uses them.) -/
def pyFloatOfString (s : String) : Option ℚ :=
  match stripList s.data with
  | '+' :: r => parseUnsignedDecimal r
  | '-' :: r => (parseUnsignedDecimal r).map Neg.neg
  | l => parseUnsignedDecimal l

/-- Model of Python `float(x)` on decoded JSON values (line 93): numbers pass
through, `bool` maps to 1/0, strings go through `float(str)`, and `None`,
`list`, `dict` raise `TypeError` (modelled as `none`). -/
def pyFloat : JVal → Option ℚ
  | .num q => some q
  | .bool b => some (if b then 1 else 0)
  | .str s => pyFloatOfString s
  | _ => none

/-- Per-author accumulator, the value type of `author_stats` (line 40). -/
structure Stats where
  count : Nat
  sentiment_sum : ℚ
  deriving DecidableEq

/-- The `author_stats` mapping, in `dict` insertion order (new authors are
appended at the end, as a Python `dict` does on first assignment). -/
abbrev AggState := List (JVal × Stats)

/-- Membership lookup in `author_stats` (first matching key; keys are unique
in every reachable state). -/
def lookupStats : AggState → JVal → Option Stats
  | [], _ => none
  | (k, s) :: tl, g => if k = g then some s else lookupStats tl g

/-- The two increments of lines 97-98: `count += 1`, `sentiment_sum += v`. -/
def bumpStats (v : ℚ) (s : Stats) : Stats :=
  ⟨s.count + 1, s.sentiment_sum + v⟩

/-- Lines 96-98: `stats = author_stats[author]` (the `defaultdict`
materialises `(0, 0.0)` for a fresh key) followed by the two increments. -/
def applyUpdate : AggState → JVal → ℚ → AggState
  | [], a, v => [(a, bumpStats v ⟨0, 0⟩)]
  | (k, s) :: tl, a, v =>
    if k = a then (k, bumpStats v s) :: tl
    else (k, s) :: applyUpdate tl a v

/-- A read of `author_stats[k]` with `defaultdict` semantics: a missing key is
materialised with the default `(0, 0.0)` entry appended at the end. -/
def ddAccess (st : AggState) (k : JVal) : Stats × AggState :=
  match lookupStats st k with
  | some s => (s, st)
  | none => (⟨0, 0⟩, st ++ [(k, (⟨0, 0⟩ : Stats))])

/-- One list comprehension of lines 58-63: reads `author_stats[k]` for each
`k`, threading the (possibly materialising) state through the reads. Repeated
subscripts of the same key inside one comprehension element are collapsed into
one read: after the first read the key is present, so the later reads return
the same entry without touching the state. -/
def ddMapAccess {α : Type} (f : Stats → α) : AggState → List JVal → List α × AggState
  | st, [] => ([], st)
  | st, k :: ks =>
    let p := ddAccess st k
    let rest := ddMapAccess f p.2 ks
    (f p.1 :: rest.1, rest.2)

/-- The average derived for rendering on lines 59-63:
`sum / count if count else 0.5`. -/
def avgOf (s : Stats) : ℚ :=
  if s.count ≠ 0 then s.sentiment_sum / (s.count : ℚ) else 1 / 2

/-- `update_chart` (lines 53-81) as observed on the aggregate state: it reads
`list(author_stats.keys())`, the counts and the averages (threading the
`defaultdict` through every subscript), and returns them for drawing together
with the state as left behind by those reads. The matplotlib drawing calls
touch no aggregate data. -/
def update_chart (st : AggState) : (List JVal × List Nat × List ℚ) × AggState :=
  let authors := st.map Prod.fst
  let counts := ddMapAccess (fun s => s.count) st authors
  let avgs := ddMapAccess avgOf counts.2 authors
  ((authors, counts.1, avgs.1), avgs.2)

/-- Observable outcome of `process_message` on one line: an accepted update
(logged at line 100), the `"Expected dict, got ..."` rejection (line 103), or
the generic `"Error processing message: ..."` rejection of the `except`
handler (line 105). -/
inductive Outcome where
  | processed (author : JVal) (sentiment : ℚ)
  | notDict (typeName : String)
  | errorOut (msg : String)
  deriving DecidableEq

/-- Whether an outcome is the accepted one. -/
def Outcome.isProcessed : Outcome → Bool
  | .processed _ _ => true
  | _ => false

/-- Whether an outcome is the `"Expected dict, got ..."` rejection. -/
def Outcome.isNotDict : Outcome → Bool
  | .notDict _ => true
  | _ => false

/-- `process_message` (lines 87-105) on the decode result of one line
(`json.loads` is external; a raised decode error arrives as `.error e`).
An object yields `author` (line 92, defaulting to `"unknown"` when absent),
then `float(...get("sentiment", 0.5))` (line 93, `none` = raised), then the
`defaultdict` update of lines 96-98 and the inline `update_chart()` call of
line 101; an unhashable author raises at `author_stats[author]`. A non-object
logs `Expected dict, got <type>`; any raise lands in the `except` handler and
leaves the state alone. -/
def process_message (decoded : Except String JVal) (st : AggState) : Outcome × AggState :=
  match decoded with
  | .error e => (.errorOut e, st)
  | .ok (JVal.obj fields) =>
    let author := (fields.get? "author").getD (JVal.str "unknown")
    match pyFloat ((fields.get? "sentiment").getD (JVal.num (1 / 2))) with
    | none => (.errorOut "invalid sentiment value", st)
    | some v =>
      if author.hashable then
        let st1 := applyUpdate st author v
        (.processed author v, (update_chart st1).2)
      else (.errorOut "unhashable author key", st)
  | .ok j => (.notDict (pyTypeName j), st)

/-- The accepted update a decode result gives rise to, if any (pure
restatement of the accepting path of `process_message`). -/
def parseUpd (decoded : Except String JVal) : Option (JVal × ℚ) :=
  match decoded with
  | .ok (JVal.obj fields) =>
    let author := (fields.get? "author").getD (JVal.str "unknown")
    match pyFloat ((fields.get? "sentiment").getD (JVal.num (1 / 2))) with
    | some v => if author.hashable then some (author, v) else none
    | none => none
  | _ => none

/-- Folding a list of decode results into the aggregate from process start
(the tailing loop's successive `process_message` calls). -/
def runMsgs (msgs : List (Except String JVal)) : AggState :=
  msgs.foldl (fun st m => (process_message m st).2) []

/-- Applying a sequence of accepted updates for one group (lines 96-98 per
update). -/
def applyMany (st : AggState) (g : JVal) (vs : List ℚ) : AggState :=
  vs.foldl (fun s v => applyUpdate s g v) st

/-- The tailed file: its character content and the reader's cursor. -/
structure Tailer where
  content : List Char
  pos : Nat
  deriving DecidableEq

/-- `open(DATA_FILE)` followed by `file.seek(0, os.SEEK_END)` (lines
119-120): the cursor starts at the current end of file. -/
def openTail (c : List Char) : Tailer := ⟨c, c.length⟩

/-- The producer appends bytes to the file; the reader's cursor is
untouched. -/
def appendTail (t : Tailer) (a : List Char) : Tailer := ⟨t.content ++ a, t.pos⟩

/-- Python `file.readline()` at the cursor (line 124): up to and including the
next newline when one is present, otherwise all remaining characters (a
partial final line is returned as-is, and an empty string at end of file). -/
def readline (t : Tailer) : List Char × Tailer :=
  let rest := t.content.drop t.pos
  let pre := rest.takeWhile (fun c => c ≠ '\n')
  if pre.length < rest.length then (pre ++ ['\n'], ⟨t.content, t.pos + pre.length + 1⟩)
  else (pre, ⟨t.content, t.pos + pre.length⟩)

/-- One iteration's read decision (lines 124-128): `some line` when
`line.strip()` is truthy and the line is handed to `process_message`,
`none` when the loop sleeps instead. -/
def nextEvent (t : Tailer) : Option (List Char) × Tailer :=
  let r := readline t
  if stripList r.1 = [] then (none, r.2) else (some r.1, r.2)

/-- Observable result of one run of `main` (lines 111-134). -/
structure DriverResult where
  exitCode : Nat
  iterations : Nat
  finalized : Bool
  final : AggState
  deriving DecidableEq

/-- The `while True` loop of lines 123-128 over a script of iteration inputs
(`some m`: a non-blank line arrived, decoding as `m`; `none`: blank or no
data, the loop sleeps). The script's end is the external `KeyboardInterrupt`,
which runs the `finally` block (`plt.ioff(); plt.show()`, the renderer
finalize step) and returns cleanly: exit status 0. -/
def driverLoop : List (Option (Except String JVal)) → AggState → Nat → DriverResult
  | [], st, n => ⟨0, n, true, st⟩
  | some m :: rest, st, n => driverLoop rest (process_message m st).2 (n + 1)
  | none :: rest, st, n => driverLoop rest st (n + 1)

/-- `main` (lines 111-134): when `DATA_FILE` does not exist, `sys.exit(1)`
before the loop ever runs; otherwise the tailing loop until cancellation. -/
def driverRun (fileOk : Bool) (script : List (Option (Except String JVal))) : DriverResult :=
  if fileOk then driverLoop script [] 0 else ⟨1, 0, false, []⟩

/-! ## Helper lemmas -/

/-- Characterisation of one `defaultdict` update: the touched key holds the
bumped previous entry (default `(0, 0)` when fresh), every other key is
untouched. -/
theorem lookupStats_applyUpdate (st : AggState) (a : JVal) (v : ℚ) (g : JVal) :
    lookupStats (applyUpdate st a v) g =
      if g = a then some (bumpStats v ((lookupStats st a).getD ⟨0, 0⟩))
      else lookupStats st g := by
  induction st with
  | nil =>
    simp only [applyUpdate, lookupStats]
    by_cases h : g = a
    · subst h; simp [lookupStats]
    · rw [if_neg (fun hh => h hh.symm), if_neg h]
  | cons p tl ih =>
    obtain ⟨k, s⟩ := p
    by_cases hka : k = a
    · subst hka
      by_cases hgk : g = k
      · subst hgk
        simp [applyUpdate, lookupStats]
      · simp [applyUpdate, lookupStats, hgk, Ne.symm hgk]
    · by_cases hga : g = a
      · subst hga
        have hkg : ¬ k = g := hka
        simp [applyUpdate, lookupStats, hka, hkg, Ne.symm hkg, ih]
      · by_cases hkg : k = g
        · subst hkg
          simp [applyUpdate, lookupStats, hka, hga, ih]
        · simp [applyUpdate, lookupStats, hka, hga, hkg, Ne.symm hkg, ih]

/-- Every key listed by `author_stats.keys()` has an entry. -/
theorem lookupStats_isSome_of_mem {st : AggState} {g : JVal} (h : g ∈ st.map Prod.fst) :
    (lookupStats st g).isSome := by
  induction st with
  | nil => simp at h
  | cons p tl ih =>
    obtain ⟨k, s⟩ := p
    simp only [List.map_cons, List.mem_cons] at h
    by_cases hkg : k = g
    · simp [lookupStats, hkg]
    · rcases h with h | h
      · exact absurd h.symm hkg
      · simp [lookupStats, hkg, ih h]

/-- A `defaultdict` read of a present key returns its entry and leaves the
mapping alone. -/
theorem ddAccess_present {st : AggState} {k : JVal} (h : (lookupStats st k).isSome) :
    ddAccess st k = ((lookupStats st k).getD ⟨0, 0⟩, st) := by
  cases hh : lookupStats st k with
  | none => rw [hh] at h; simp at h
  | some s => simp [ddAccess, hh]

/-- A comprehension that reads only present keys returns their entries and
leaves the mapping alone. -/
theorem ddMapAccess_present {α : Type} (f : Stats → α) (st : AggState) (ks : List JVal)
    (h : ∀ k ∈ ks, (lookupStats st k).isSome) :
    ddMapAccess f st ks = (ks.map (fun k => f ((lookupStats st k).getD ⟨0, 0⟩)), st) := by
  induction ks with
  | nil => simp [ddMapAccess]
  | cons k ks ih =>
    have hk := h k (by simp)
    simp only [ddMapAccess, ddAccess_present hk]
    rw [ih (fun x hx => h x (by simp [hx]))]
    simp

/-- `update_chart` computed in closed form: the authors in insertion order,
their counts, their rendered averages, and the state exactly as it was. -/
theorem update_chart_eq (st : AggState) :
    update_chart st = ((st.map Prod.fst,
      (st.map Prod.fst).map (fun k => ((lookupStats st k).getD ⟨0, 0⟩).count),
      (st.map Prod.fst).map (fun k => avgOf ((lookupStats st k).getD ⟨0, 0⟩))), st) := by
  have h : ∀ k ∈ st.map Prod.fst, (lookupStats st k).isSome :=
    fun k hk => lookupStats_isSome_of_mem hk
  simp only [update_chart, ddMapAccess_present _ _ _ h]

/-- `update_chart` never mutates `author_stats`. -/
theorem update_chart_state (st : AggState) : (update_chart st).2 = st := by
  rw [update_chart_eq]

/-- The state left by `process_message` is the `defaultdict` update for the
accepted update when there is one, and the unchanged state otherwise. -/
theorem process_message_state (m : Except String JVal) (st : AggState) :
    (process_message m st).2 =
      match parseUpd m with
      | some (a, v) => applyUpdate st a v
      | none => st := by
  cases m with
  | error e => rfl
  | ok j =>
    cases j with
    | obj fields =>
      simp only [process_message, parseUpd]
      cases pyFloat ((fields.get? "sentiment").getD (JVal.num (1 / 2))) with
      | none => rfl
      | some v =>
        by_cases h : ((fields.get? "author").getD (JVal.str "unknown")).hashable
        · simp [h, update_chart_state]
        · simp [h]
    | str s => rfl
    | num q => rfl
    | bool b => rfl
    | null => rfl
    | arr elems => rfl

/-- A message is accepted exactly when it parses to an update. -/
theorem process_message_isProcessed (m : Except String JVal) (st : AggState) :
    (process_message m st).1.isProcessed = (parseUpd m).isSome := by
  cases m with
  | error e => rfl
  | ok j =>
    cases j with
    | obj fields =>
      simp only [process_message, parseUpd]
      cases pyFloat ((fields.get? "sentiment").getD (JVal.num (1 / 2))) with
      | none => rfl
      | some v =>
        by_cases h : ((fields.get? "author").getD (JVal.str "unknown")).hashable
        · simp [h, Outcome.isProcessed]
        · simp [h, Outcome.isProcessed]
    | str s => rfl
    | num q => rfl
    | bool b => rfl
    | null => rfl
    | arr elems => rfl

/-- Folding a value sequence for one group: the group's entry accumulates the
length and the sum on top of whatever was there (default `(0, 0)`). -/
theorem lookupStats_applyMany (vs : List ℚ) (st : AggState) (g : JVal) :
    lookupStats (applyMany st g vs) g =
      if vs = [] then lookupStats st g
      else some ⟨((lookupStats st g).getD ⟨0, 0⟩).count + vs.length,
                 ((lookupStats st g).getD ⟨0, 0⟩).sentiment_sum + vs.sum⟩ := by
  induction vs generalizing st with
  | nil => simp [applyMany]
  | cons v vs ih =>
    have hstep : applyMany st g (v :: vs) = applyMany (applyUpdate st g v) g vs := by
      simp [applyMany]
    have hlk : lookupStats (applyUpdate st g v) g =
        some (bumpStats v ((lookupStats st g).getD ⟨0, 0⟩)) := by
      rw [lookupStats_applyUpdate]; simp
    rw [hstep, ih]
    by_cases hvs : vs = []
    · subst hvs
      simp [hlk, bumpStats]
    · simp only [hvs, if_false, hlk, Option.getD_some, bumpStats, List.length_cons,
        List.sum_cons, Option.some.injEq, Stats.mk.injEq]
      simp
      exact ⟨by omega, by ring⟩

/-- Whatever the loop script, the tailing loop ends in the clean shutdown:
exit status 0 and the finalize step performed. -/
theorem driverLoop_clean (script : List (Option (Except String JVal)))
    (st : AggState) (n : Nat) :
    (driverLoop script st n).exitCode = 0 ∧ (driverLoop script st n).finalized = true := by
  induction script generalizing st n with
  | nil => simp [driverLoop]
  | cons i rest ih =>
    cases i with
    | none => simpa [driverLoop] using ih st (n + 1)
    | some m => simpa [driverLoop] using ih (process_message m st).2 (n + 1)

/-! ## Claims -/

/-- Claim C9: rendering does not mutate the aggregate state: `update_chart`
returns the group-to-stats mapping exactly as it found it, and calling it
again with no intervening update computes identical authors, counts and
averages. -/
theorem render_pure_C9 (st : AggState) :
    (update_chart st).2 = st ∧
    (update_chart ((update_chart st).2)).1 = (update_chart st).1 := by
  refine ⟨update_chart_state st, ?_⟩
  rw [update_chart_state st]

/-- Claim C10: a rejected line — decode failure, non-object, or sentiment not
coercible to float — leaves the aggregate state completely unchanged. -/
theorem reject_unchanged_C10 (m : Except String JVal) (st : AggState)
    (h : (process_message m st).1.isProcessed = false) :
    (process_message m st).2 = st := by
  rw [process_message_state]
  rw [process_message_isProcessed] at h
  cases hp : parseUpd m with
  | none => rfl
  | some p => rw [hp] at h; simp at h

/-- Witness for C10 at a concrete rejected input. -/
theorem reject_unchanged_C10_witness :
    ((process_message (.error "bad json") []).1.isProcessed = false) ∧
    (process_message (.error "bad json") []).2 = [] :=
  ⟨rfl, reject_unchanged_C10 (.error "bad json") [] rfl⟩

/-- Claim C7: a missing input file means a non-zero exit with zero tailing
iterations; external cancellation runs the renderer finalize step and exits
with status 0, whatever the loop script was. -/
theorem driver_exit_C7 (script : List (Option (Except String JVal))) :
    (driverRun false script).exitCode ≠ 0 ∧
    (driverRun false script).iterations = 0 ∧
    (driverRun true script).exitCode = 0 ∧
    (driverRun true script).finalized = true := by
  refine ⟨by simp [driverRun], by simp [driverRun], ?_, ?_⟩
  · simpa [driverRun] using (driverLoop_clean script [] 0).1
  · simpa [driverRun] using (driverLoop_clean script [] 0).2

/-- Claim C1: additivity: a sequence of N accepted updates to one group
yields `count = N` and `sum` equal to the total of the values, and the
average derived for rendering (the expression of lines 59-63, `avgOf`)
equals `sum / count`. -/
theorem additivity_C1 (g : JVal) (vs : List ℚ) (h : vs ≠ []) :
    lookupStats (applyMany [] g vs) g = some ⟨vs.length, vs.sum⟩ ∧
    avgOf ⟨vs.length, vs.sum⟩ = vs.sum / (vs.length : ℚ) := by
  constructor
  · rw [lookupStats_applyMany]
    simp [h, lookupStats]
  · have hl : vs.length ≠ 0 := by simpa using h
    simp [avgOf, hl]

/-- Witness for C1 at the two-value sequence 0.8, 0.6 for one group. -/
theorem additivity_C1_witness :
    (([(4 : ℚ) / 5, 3 / 5] : List ℚ) ≠ []) ∧
    (lookupStats (applyMany [] (JVal.str "a") [(4 : ℚ) / 5, 3 / 5]) (JVal.str "a") =
       some ⟨([(4 : ℚ) / 5, 3 / 5] : List ℚ).length, ([(4 : ℚ) / 5, 3 / 5] : List ℚ).sum⟩ ∧
     avgOf ⟨([(4 : ℚ) / 5, 3 / 5] : List ℚ).length, ([(4 : ℚ) / 5, 3 / 5] : List ℚ).sum⟩ =
       ([(4 : ℚ) / 5, 3 / 5] : List ℚ).sum / ((([(4 : ℚ) / 5, 3 / 5] : List ℚ).length : ℕ) : ℚ)) :=
  ⟨by simp, additivity_C1 (JVal.str "a") [(4 : ℚ) / 5, 3 / 5] (by simp)⟩

/-- Appending one more message to the processed sequence is one more
`process_message` step. -/
theorem runMsgs_append (msgs : List (Except String JVal)) (m : Except String JVal) :
    runMsgs (msgs ++ [m]) = (process_message m (runMsgs msgs)).2 := by
  simp [runMsgs, List.foldl_append]

/-- A key is present after folding the messages over a start state exactly
when it was present before or some message carries an accepted update for
it. -/
theorem lookupStats_foldl_isSome (msgs : List (Except String JVal)) (st : AggState) (g : JVal) :
    (lookupStats (msgs.foldl (fun s m => (process_message m s).2) st) g).isSome ↔
      ((lookupStats st g).isSome ∨ ∃ m ∈ msgs, ∃ v, parseUpd m = some (g, v)) := by
  induction msgs generalizing st with
  | nil => simp
  | cons m msgs ih =>
    simp only [List.foldl_cons]
    rw [ih]
    have hstep : (lookupStats (process_message m st).2 g).isSome ↔
        ((lookupStats st g).isSome ∨ ∃ v, parseUpd m = some (g, v)) := by
      rw [process_message_state]
      cases hp : parseUpd m with
      | none => simp
      | some p =>
        obtain ⟨a, v⟩ := p
        simp only [lookupStats_applyUpdate, Option.some.injEq, Prod.mk.injEq]
        by_cases hga : g = a
        · subst hga
          simp
        · simp [hga, Ne.symm hga]
    rw [hstep]
    simp only [List.mem_cons, or_and_right, exists_or, exists_eq_left]
    tauto

/-- One `defaultdict` update keeps every count at least 1. -/
theorem counts_pos_applyUpdate {st : AggState}
    (h : ∀ g s, lookupStats st g = some s → 1 ≤ s.count) (a : JVal) (v : ℚ) :
    ∀ g s, lookupStats (applyUpdate st a v) g = some s → 1 ≤ s.count := by
  intro g s hs
  rw [lookupStats_applyUpdate] at hs
  by_cases hga : g = a
  · rw [if_pos hga] at hs
    injection hs with hs
    subst hs
    simp [bumpStats]
  · rw [if_neg hga] at hs
    exact h g s hs

/-- Every entry reachable by processing messages has a positive count. -/
theorem counts_pos_foldl (msgs : List (Except String JVal)) (st : AggState)
    (h : ∀ g s, lookupStats st g = some s → 1 ≤ s.count) :
    ∀ g s, lookupStats (msgs.foldl (fun s m => (process_message m s).2) st) g = some s →
      1 ≤ s.count := by
  induction msgs generalizing st with
  | nil => simpa using h
  | cons m msgs ih =>
    simp only [List.foldl_cons]
    apply ih
    rw [process_message_state]
    cases hp : parseUpd m with
    | none => simpa using h
    | some p =>
      obtain ⟨a, v⟩ := p
      exact counts_pos_applyUpdate h a v

/-- One `process_message` step never deletes a key and never decrements a
count: an existing entry is either left alone or bumped (count + 1,
sum + value). -/
theorem step_count_mono (st : AggState) (m : Except String JVal) (g : JVal) (s : Stats)
    (hs : lookupStats st g = some s) :
    ∃ s', lookupStats (process_message m st).2 g = some s' ∧ s.count ≤ s'.count ∧
      (s' = s ∨ ∃ v, s' = bumpStats v s) := by
  rw [process_message_state]
  cases hp : parseUpd m with
  | none => exact ⟨s, hs, le_refl _, Or.inl rfl⟩
  | some p =>
    obtain ⟨a, v⟩ := p
    by_cases hga : g = a
    · subst hga
      refine ⟨bumpStats v s, ?_, ?_, Or.inr ⟨v, rfl⟩⟩
      · rw [lookupStats_applyUpdate, if_pos rfl, hs]
        rfl
      · simp [bumpStats]
    · refine ⟨s, ?_, le_refl _, Or.inl rfl⟩
      rw [lookupStats_applyUpdate, if_neg hga]
      exact hs

/-- Claim C6: in every reachable aggregate state the keys are exactly the
groups with at least one accepted update since process start; no entry ever
has `count = 0`; and one more processed message never deletes a key nor
decrements its count — an existing entry is only ever left alone or bumped
(count incremented, value added to sum). -/
theorem aggregate_invariant_C6 (msgs : List (Except String JVal))
    (m : Except String JVal) (g : JVal) :
    ((lookupStats (runMsgs msgs) g).isSome ↔
      ∃ m' ∈ msgs, ∃ v, parseUpd m' = some (g, v)) ∧
    (∀ s, lookupStats (runMsgs msgs) g = some s → 1 ≤ s.count) ∧
    (∀ s, lookupStats (runMsgs msgs) g = some s →
      ∃ s', lookupStats (runMsgs (msgs ++ [m])) g = some s' ∧ s.count ≤ s'.count ∧
        (s' = s ∨ ∃ v, s' = bumpStats v s)) := by
  refine ⟨?_, ?_, ?_⟩
  · simpa [runMsgs, lookupStats] using lookupStats_foldl_isSome msgs [] g
  · exact fun s hs => counts_pos_foldl msgs [] (by simp [lookupStats]) g s hs
  · intro s hs
    rw [runMsgs_append]
    exact step_count_mono (runMsgs msgs) m g s hs

/-- Witness for C6 on the one-message sequence `{author: a, sentiment: 1}`. -/
theorem aggregate_invariant_C6_witness :
    (1 ≤ (bumpStats 1 ⟨0, 0⟩).count) ∧
    (∃ s', lookupStats (runMsgs ([Except.ok (JVal.obj (.cons "author" (.str "a")
        (.cons "sentiment" (.num 1) .nil)))] ++ [Except.ok (JVal.obj (.cons "author" (.str "a")
        (.cons "sentiment" (.num 1) .nil)))])) (JVal.str "a") = some s' ∧
      (bumpStats 1 ⟨0, 0⟩).count ≤ s'.count ∧
      (s' = bumpStats 1 ⟨0, 0⟩ ∨ ∃ v, s' = bumpStats v (bumpStats 1 ⟨0, 0⟩))) :=
  ⟨(aggregate_invariant_C6 [Except.ok (JVal.obj (.cons "author" (.str "a")
      (.cons "sentiment" (.num 1) .nil)))] (Except.ok (JVal.obj (.cons "author" (.str "a")
      (.cons "sentiment" (.num 1) .nil)))) (JVal.str "a")).2.1 (bumpStats 1 ⟨0, 0⟩) rfl,
   (aggregate_invariant_C6 [Except.ok (JVal.obj (.cons "author" (.str "a")
      (.cons "sentiment" (.num 1) .nil)))] (Except.ok (JVal.obj (.cons "author" (.str "a")
      (.cons "sentiment" (.num 1) .nil)))) (JVal.str "a")).2.2 (bumpStats 1 ⟨0, 0⟩) rfl⟩

/-- Claim C5: opening positions the cursor at end of file, so pre-existing
content is never yielded: whatever the file held before open (in particular
`"line1\n"`), appending `"line2\n"` yields exactly one line event, carrying
`"line2\n"` (which strips to `"line2"`), and the following read yields no
event. -/
theorem tail_isolation_C5 (c : List Char) :
    (nextEvent (appendTail (openTail c) ("line2\n".data))).1 = some ("line2\n".data) ∧
    stripList ("line2\n".data) = "line2".data ∧
    (nextEvent ((nextEvent (appendTail (openTail c) ("line2\n".data))).2)).1 = none := by
  have hrest : (c ++ ("line2\n".data)).drop c.length = "line2\n".data :=
    List.drop_left c _
  have hpre : ("line2\n".data).takeWhile (fun ch => ch ≠ '\n') = "line2".data := rfl
  have h1 : nextEvent (appendTail (openTail c) ("line2\n".data)) =
      (some ("line2\n".data),
       ⟨c ++ "line2\n".data, c.length + ("line2".data).length + 1⟩) := by
    simp only [nextEvent, readline, appendTail, openTail, hrest, hpre]
    rw [if_pos (by decide : ("line2".data).length < ("line2\n".data).length)]
    rw [if_neg (by decide : ¬ stripList ("line2".data ++ ['\n']) = [])]
    rfl
  have h2 : (c ++ ("line2\n".data)).drop (c.length + ("line2".data).length + 1) = [] := by
    apply List.drop_eq_nil_of_le
    rw [List.length_append]
    have hsix : ("line2\n".data).length = 6 := rfl
    have hfive : ("line2".data).length = 5 := rfl
    omega
  refine ⟨by rw [h1], rfl, ?_⟩
  rw [h1]
  simp only [nextEvent, readline, h2]
  rfl

/-- Claim C2 (refuted by the code): appending a partial line with no trailing
newline does NOT yield `NoDataYet`: `readline` returns the partial text, the
loop's `line.strip()` test passes, and the fragment is processed; when the
remainder arrives it is yielded as a second, separate line, so the full
record is never reassembled. -/
theorem partial_line_C2 :
    (nextEvent (appendTail (openTail []) ("\x7b\"author\":\"a\",\"se".data))).1
      = some ("\x7b\"author\":\"a\",\"se".data) ∧
    ((nextEvent (appendTail (openTail []) ("\x7b\"author\":\"a\",\"se".data))).1
      ≠ none) ∧
    (nextEvent (appendTail (nextEvent (appendTail (openTail [])
        ("\x7b\"author\":\"a\",\"se".data))).2 ("ntiment\":0.9\x7d\n".data))).1
      = some ("ntiment\":0.9\x7d\n".data) ∧
    (nextEvent (appendTail (nextEvent (appendTail (openTail [])
        ("\x7b\"author\":\"a\",\"se".data))).2 ("ntiment\":0.9\x7d\n".data))).1
      ≠ some ("\x7b\"author\":\"a\",\"se".data ++ "ntiment\":0.9\x7d\n".data) := by
  refine ⟨by decide, by decide, by decide, by decide⟩

/-- Claim C3 counterexample: for the decoded object with a non-string author,
`{author: 1, sentiment: 1}`, the accepted update's group is the number 1
itself — the state holds key `1` and no `"unknown"` key. -/
theorem unknown_default_C3_cex :
    (process_message (.ok (JVal.obj (.cons "author" (JVal.num 1)
        (.cons "sentiment" (JVal.num 1) .nil)))) []).1 = .processed (JVal.num 1) 1 ∧
    lookupStats (process_message (.ok (JVal.obj (.cons "author" (JVal.num 1)
        (.cons "sentiment" (JVal.num 1) .nil)))) []).2 (JVal.str "unknown") = none ∧
    (lookupStats (process_message (.ok (JVal.obj (.cons "author" (JVal.num 1)
        (.cons "sentiment" (JVal.num 1) .nil)))) []).2 (JVal.num 1)).isSome = true :=
  ⟨rfl, rfl, rfl⟩

/-- An accepted update from a decoded object pins down its parts: the group
is `author` defaulted to "unknown", the value is the successful `float()` of
`sentiment` defaulted to 0.5, and the group passed the hashability check. -/
theorem parseUpd_obj_eq (fields : JFields) (g : JVal) (v : ℚ)
    (h : parseUpd (.ok (JVal.obj fields)) = some (g, v)) :
    g = (fields.get? "author").getD (JVal.str "unknown") ∧
    pyFloat ((fields.get? "sentiment").getD (JVal.num (1 / 2))) = some v ∧
    g.hashable = true := by
  simp only [parseUpd] at h
  cases hp : pyFloat ((fields.get? "sentiment").getD (JVal.num (1 / 2))) with
  | none =>
    simp only [hp] at h
    exact Option.noConfusion h
  | some w =>
    simp only [hp] at h
    by_cases hh : ((fields.get? "author").getD (JVal.str "unknown")).hashable = true
    · rw [if_pos hh, Option.some.injEq, Prod.mk.injEq] at h
      exact ⟨h.1.symm, by rw [h.2], by rw [← h.1]; exact hh⟩
    · rw [if_neg hh] at h
      exact Option.noConfusion h

/-- On an object that yields an accepted update, `process_message` reports
exactly that update. -/
theorem process_message_obj_accepted (fields : JFields) (st : AggState) (g : JVal) (v : ℚ)
    (h : parseUpd (.ok (JVal.obj fields)) = some (g, v)) :
    (process_message (.ok (JVal.obj fields)) st).1 = Outcome.processed g v := by
  obtain ⟨hg, hv, hh⟩ := parseUpd_obj_eq fields g v h
  simp only [process_message, hv, ← hg]
  rw [if_pos hh]

/-- Claim C3 as amended: for every accepted update from a decoded object, the
group is the literal string "unknown" when the author key is absent, a
present author value is used as the group unchanged whatever its type, and
the value is 0.5 whenever the sentiment key is absent; `process_message`
accepts with exactly this group and value. In particular parsing an empty
object yields group "unknown" and value 0.5 (see the witness). -/
theorem unknown_default_C3 (fields : JFields) (st : AggState) (g : JVal) (v : ℚ)
    (h : parseUpd (.ok (JVal.obj fields)) = some (g, v)) :
    (fields.get? "author" = none → g = JVal.str "unknown") ∧
    (∀ a, fields.get? "author" = some a → g = a) ∧
    (fields.get? "sentiment" = none → v = 1 / 2) ∧
    (process_message (.ok (JVal.obj fields)) st).1 = Outcome.processed g v ∧
    (process_message (.ok (JVal.obj fields)) st).2 = applyUpdate st g v := by
  obtain ⟨hg, hv, hh⟩ := parseUpd_obj_eq fields g v h
  refine ⟨?_, ?_, ?_, process_message_obj_accepted fields st g v h, ?_⟩
  · intro hA
    rw [hg, hA]
    rfl
  · intro a hA
    rw [hg, hA]
    rfl
  · intro hS
    rw [hS] at hv
    simp only [Option.getD_none, pyFloat, Option.some.injEq] at hv
    exact hv.symm
  · simp only [process_message_state, h]

/-- Witness for C3 as amended, at the empty object: the accepted update is
`(group "unknown", value 0.5)`. -/
theorem unknown_default_C3_witness :
    (parseUpd (.ok (JVal.obj .nil)) = some (JVal.str "unknown", 1 / 2)) ∧
    ((JFields.nil.get? "author" = none → JVal.str "unknown" = JVal.str "unknown") ∧
     (∀ a, JFields.nil.get? "author" = some a → JVal.str "unknown" = a) ∧
     (JFields.nil.get? "sentiment" = none → (1 : ℚ) / 2 = 1 / 2) ∧
     (process_message (.ok (JVal.obj .nil)) []).1 =
       Outcome.processed (JVal.str "unknown") (1 / 2) ∧
     (process_message (.ok (JVal.obj .nil)) []).2 =
       applyUpdate [] (JVal.str "unknown") (1 / 2)) :=
  ⟨rfl, unknown_default_C3 .nil [] (JVal.str "unknown") (1 / 2) rfl⟩

/-- Claim C4 counterexample: a line whose JSON decoding fails is NOT
classified with the non-object rejection (the one whose diagnostic carries
the decoded type): it lands in the generic error outcome carrying only the
decoder's message, while `[1,2,3]` does get the non-object rejection. -/
theorem rejection_C4_cex :
    ((process_message (.error "Expecting value") []).1.isNotDict = false) ∧
    ((process_message (.error "Expecting value") []).1 = .errorOut "Expecting value") ∧
    ((process_message (.ok (JVal.arr (.cons (JVal.num 1) (.cons (JVal.num 2)
        (.cons (JVal.num 3) .nil))))) []).1 = .notDict "list") :=
  ⟨rfl, rfl, rfl⟩

/-- Claim C4 as amended: a decoded non-object yields the not-an-object
rejection whose diagnostic includes the decoded type; a line that fails JSON
decoding and an object whose sentiment is not float-coercible are both
rejected through the generic error path (the decode failure carries the
decoder's message, not a decoded type). -/
theorem rejection_C4 (st : AggState) (e : String) (j : JVal) (fields : JFields)
    (hj : j.isObj = false) (hs : fields.get? "sentiment" = some (JVal.str "bad")) :
    (process_message (.error e) st).1 = .errorOut e ∧
    (process_message (.ok j) st).1 = .notDict (pyTypeName j) ∧
    (process_message (.ok (JVal.obj fields)) st).1 = .errorOut "invalid sentiment value" := by
  have hbad : pyFloat (JVal.str "bad") = none := rfl
  refine ⟨rfl, ?_, ?_⟩
  · cases j with
    | obj f => simp [JVal.isObj] at hj
    | str s => rfl
    | num q => rfl
    | bool b => rfl
    | null => rfl
    | arr es => rfl
  · simp [process_message, hs, hbad]

/-- Witness for C4 as amended, at `[1]`-shaped and `{sentiment: "bad"}`-shaped
inputs. -/
theorem rejection_C4_witness :
    ((JVal.arr (.cons (JVal.num 1) .nil)).isObj = false) ∧
    ((JFields.cons "sentiment" (JVal.str "bad") .nil).get? "sentiment" =
      some (JVal.str "bad")) ∧
    ((process_message (.error "no json") []).1 = .errorOut "no json" ∧
     (process_message (.ok (JVal.arr (.cons (JVal.num 1) .nil))) []).1 =
       .notDict (pyTypeName (JVal.arr (.cons (JVal.num 1) .nil))) ∧
     (process_message (.ok (JVal.obj (JFields.cons "sentiment" (JVal.str "bad") .nil))) []).1 =
       .errorOut "invalid sentiment value") :=
  ⟨rfl, rfl, rejection_C4 [] "no json" (JVal.arr (.cons (JVal.num 1) .nil))
    (JFields.cons "sentiment" (JVal.str "bad") .nil) rfl rfl⟩

/-- Claim C8: the end-to-end scenario: processing the three lines
`{author: alice, sentiment: 0.8}`, `{author: bob, sentiment: 0.2}`,
`{author: alice, sentiment: 0.6}` leaves alice with count 2 and rendered
average exactly 0.7, and bob with count 1 and rendered average exactly
0.2. -/
theorem end_to_end_C8 :
    (lookupStats (runMsgs [
        Except.ok (JVal.obj (.cons "author" (.str "alice")
          (.cons "sentiment" (JVal.num 0.8) .nil))),
        Except.ok (JVal.obj (.cons "author" (.str "bob")
          (.cons "sentiment" (JVal.num 0.2) .nil))),
        Except.ok (JVal.obj (.cons "author" (.str "alice")
          (.cons "sentiment" (JVal.num 0.6) .nil)))])
      (JVal.str "alice")).map (fun s => (s.count, avgOf s)) = some (2, (0.7 : ℚ)) ∧
    (lookupStats (runMsgs [
        Except.ok (JVal.obj (.cons "author" (.str "alice")
          (.cons "sentiment" (JVal.num 0.8) .nil))),
        Except.ok (JVal.obj (.cons "author" (.str "bob")
          (.cons "sentiment" (JVal.num 0.2) .nil))),
        Except.ok (JVal.obj (.cons "author" (.str "alice")
          (.cons "sentiment" (JVal.num 0.6) .nil)))])
      (JVal.str "bob")).map (fun s => (s.count, avgOf s)) = some (1, (0.2 : ℚ)) := by
  have ha : lookupStats (runMsgs [
        Except.ok (JVal.obj (.cons "author" (.str "alice")
          (.cons "sentiment" (JVal.num 0.8) .nil))),
        Except.ok (JVal.obj (.cons "author" (.str "bob")
          (.cons "sentiment" (JVal.num 0.2) .nil))),
        Except.ok (JVal.obj (.cons "author" (.str "alice")
          (.cons "sentiment" (JVal.num 0.6) .nil)))])
      (JVal.str "alice") = some ⟨0 + 1 + 1, 0 + (0.8 : ℚ) + 0.6⟩ := rfl
  have hb : lookupStats (runMsgs [
        Except.ok (JVal.obj (.cons "author" (.str "alice")
          (.cons "sentiment" (JVal.num 0.8) .nil))),
        Except.ok (JVal.obj (.cons "author" (.str "bob")
          (.cons "sentiment" (JVal.num 0.2) .nil))),
        Except.ok (JVal.obj (.cons "author" (.str "alice")
          (.cons "sentiment" (JVal.num 0.6) .nil)))])
      (JVal.str "bob") = some ⟨0 + 1, 0 + (0.2 : ℚ)⟩ := rfl
  rw [ha, hb]
  constructor
  · norm_num [avgOf]
  · norm_num [avgOf]

end SentimentConsumer
